import Mathlib

/-!
Shallow embedding of the marketstack-rs client library core:
pagination policy (`src/api/paged/pagination.rs`), the lazy pagination
state machine (`src/api/paged/lazy.rs`), the eager paged collector
(`src/api/paged/all_at_once.rs`), query dispatch and error
classification (`src/api/endpoint.rs`, `src/api/error.rs`,
`src/api/raw.rs`), and the page-limit smart constructor
(`src/api/paged.rs`, `src/api/eod.rs`).

External library calls (JSON parsing by serde_json, Link-header parsing)
are modelled as oracles carried on the response value: a response carries
the outcome of parsing its body as JSON and the outcome of extracting a
continuation URL from its headers.  Machine integers (`usize`, `u64`,
`u16`) are modelled as `Nat`; none of the embedded arithmetic can
overflow on the inputs the library feeds it (page counters and result
counts only grow by small increments), and the `u16` domain of
`PageLimit::new` is carried as an explicit bound where it matters.
-/

namespace Marketstack

/-- JSON values, as produced by serde_json parsing.  Objects are modelled
as ordered association lists; serde_json's pointer lookup on an object
returns the value at the given key. -/
inductive JsonValue where
  | null : JsonValue
  | bool (b : Bool) : JsonValue
  | num (n : Int) : JsonValue
  | str (s : String) : JsonValue
  | arr (elems : List JsonValue) : JsonValue
  | obj (fields : List (String × JsonValue)) : JsonValue

/-- `serde_json::Value::pointer("/k")`: on an object, the value stored at
key `k` (if any); on any other JSON value, `None`. -/
def JsonValue.pointerKey : JsonValue → String → Option JsonValue
  | .obj fields, k => (fields.find? (fun p => p.1 == k)).map Prod.snd
  | _, _ => none

/-- `serde_json::Value::as_str`. -/
def JsonValue.asStr : JsonValue → Option String
  | .str s => some s
  | _ => none

/-- `http::StatusCode::is_success`: status in 200..=299. -/
def statusIsSuccess (status : Nat) : Bool :=
  200 ≤ status && status < 300

/-- `AuthError` (src/auth.rs). -/
inductive AuthError where
  | MissingAuth : AuthError
deriving DecidableEq

/-- `PaginationError` of the page-limit module (src/api/paged.rs). -/
inductive PaginationError where
  | ExceedLimit : PaginationError
deriving DecidableEq

/-- `ApiError` (src/api/error.rs).  The `Client`, `UrlParse`, `Body` and
`Json` variants carry sources that never arise in the embedded paths; they
are kept as bare constructors for completeness of the taxonomy. -/
inductive ApiError where
  | Auth (source : AuthError)
  | Pagination (source : PaginationError)
  | Client
  | UrlParse
  | Body
  | Json
  | Marketstack (msg : String)
  | MarketstackService (status : Nat) (data : List Nat)
  | MarketstackObject (obj : JsonValue)
  | MarketstackUnrecognized (obj : JsonValue)
  | DataType (typename : String)

/-- `ApiError::auth_error` (src/api/error.rs). -/
def ApiError.auth_error : ApiError :=
  .Auth AuthError.MissingAuth

/-- `ApiError::server_error` (src/api/error.rs): wrap the raw status and
body bytes. -/
def ApiError.server_error (status : Nat) (body : List Nat) : ApiError :=
  .MarketstackService status body

/-- `ApiError::from_marketstack` (src/api/error.rs): look up `/message`,
else `/error`; a string value gives `Marketstack`, a non-string value
gives `MarketstackObject`, no recognized field gives
`MarketstackUnrecognized` with the whole payload. -/
def ApiError.from_marketstack (value : JsonValue) : ApiError :=
  match (value.pointerKey "message").or (value.pointerKey "error") with
  | some errorValue =>
    match errorValue.asStr with
    | some msg => .Marketstack msg
    | none => .MarketstackObject errorValue
  | none => .MarketstackUnrecognized value

/-- `ApiError::data_type::<T>` (src/api/error.rs), with the target type's
name passed explicitly. -/
def ApiError.data_type (typename : String) : ApiError :=
  .DataType typename

/-- `Pagination` (src/api/paged/pagination.rs). -/
inductive Pagination where
  | All : Pagination
  | Limit (n : Nat) : Pagination
deriving DecidableEq

/-- `MAX_PAGE_SIZE` (src/api/paged/pagination.rs). -/
def MAX_PAGE_SIZE : Nat := 1000

/-- `Pagination::page_limit` (src/api/paged/pagination.rs). -/
def Pagination.page_limit : Pagination → Nat
  | .All => MAX_PAGE_SIZE
  | .Limit size => min size MAX_PAGE_SIZE

/-- `Pagination::is_last_page` (src/api/paged/pagination.rs). -/
def Pagination.is_last_page (p : Pagination) (last_page_size num_results : Nat) : Bool :=
  if last_page_size < p.page_limit then
    true
  else
    match p with
    | .Limit limit => limit ≤ num_results
    | .All => false

/-- A URL, modelled as its base (scheme, host and path) plus an ordered
list of query pairs; `url::Url::query_pairs_mut().append_pair` appends at
the end. -/
structure Url where
  base : String
  params : List (String × String)
deriving DecidableEq

/-- Modelled from the spec: the `QueryParams` container (its source file,
src/api/params.rs, is not in the snapshot): an ordered multi-map of query
pairs where `push` appends preserving insertion order and `add_to_url`
renders the pairs onto the URL in order. -/
abbrev QueryParams := List (String × String)

/-- Modelled from the spec: `QueryParams::push` always inserts, at the
end. -/
def QueryParams.push (qp : QueryParams) (k v : String) : QueryParams :=
  List.append qp [(k, v)]

/-- Modelled from the spec: `QueryParams::add_to_url` appends the pairs
to the URL's query string in order. -/
def QueryParams.add_to_url (qp : QueryParams) (u : Url) : Url :=
  { u with params := List.append u.params qp }

/-- An endpoint, as consumed through the `Endpoint` capability
(src/api/endpoint.rs) extended by `Pageable`: path, query parameters, and
the keyset flag (`Pageable::use_keyset_pagination`; the trait declaration
is outside the snapshot and is modelled from the spec as a boolean
capability).  The HTTP method and optional body do not influence any
claim's behaviour and are not part of the request model. -/
structure EndpointSpec where
  path : String
  parameters : QueryParams
  use_keyset_pagination : Bool

/-- The `RestClient` capability (src/api/client.rs): resolve an endpoint
path against the configured host, and expose the configured auth token.
`rest_endpoint` yields a URL with no query pairs yet. -/
structure ClientSpec where
  host : String
  auth : Option String

/-- `RestClient::rest_endpoint`. -/
def ClientSpec.rest_endpoint (c : ClientSpec) (path : String) : Url :=
  { base := c.host ++ "/" ++ path, params := [] }

/-- One HTTP response together with the outcomes of the external parsers
applied to it: `bodyJson` is the result of `serde_json::from_slice` on
the body bytes, and `nextUrlHeader` is the continuation URL extracted
from the response headers by `link_header::next_page_from_headers` (that
module is outside the snapshot; the drivers consume only its
`Option<Url>` outcome). -/
structure Response where
  status : Nat
  bodyBytes : List Nat
  bodyJson : Option JsonValue
  nextUrlHeader : Option Url

/-- `KeysetPage` (src/api/paged/lazy.rs). -/
inductive KeysetPage where
  | First : KeysetPage
  | Next (url : Url) : KeysetPage
deriving DecidableEq

/-- `Page` (src/api/paged/lazy.rs). -/
inductive Page where
  | Number (page : Nat) : Page
  | Keyset (k : KeysetPage) : Page
  | Done : Page
deriving DecidableEq

/-- `Page::next_url` (src/api/paged/lazy.rs). -/
def Page.next_url : Page → Option Url
  | .Keyset (.Next url) => some url
  | _ => none

/-- `Page::next_page` (src/api/paged/lazy.rs). -/
def Page.next_page : Page → Option Url → Page
  | .Number page, _ => .Number (page + 1)
  | .Keyset _, some next_url => .Keyset (.Next next_url)
  | .Keyset _, none => .Done
  | .Done, _ => .Done

/-- `Page::apply_to` (src/api/paged/lazy.rs): the query pairs this cursor
position appends.  The `Done` arm is unreachable in the source
(`page_url` returns before applying a `Done` cursor) and contributes no
pairs here. -/
def Page.apply_to : Page → List (String × String)
  | .Number page => [("page", toString page)]
  | .Keyset _ => [("pagination", "keyset")]
  | .Done => []

/-- `Paged` (src/api/paged/all_at_once.rs): an endpoint plus a pagination
policy. -/
structure Paged where
  endpoint : EndpointSpec
  pagination : Pagination

/-- `PageState` (src/api/paged/lazy.rs). -/
structure PageState where
  total_results : Nat
  next_page : Page
deriving DecidableEq

/-- `LazilyPagedState::new` (src/api/paged/lazy.rs). -/
def LazilyPagedState.new (paged : Paged) : PageState :=
  { total_results := 0,
    next_page :=
      if paged.endpoint.use_keyset_pagination then .Keyset .First else .Number 1 }

/-- `LazilyPagedState::next_page` (src/api/paged/lazy.rs): accumulate the
page size, then either finish or advance the cursor. -/
def LazilyPagedState.next_page (paged : Paged) (st : PageState)
    (last_page_size : Nat) (next_url : Option Url) : PageState :=
  let total := st.total_results + last_page_size
  if paged.pagination.is_last_page last_page_size total then
    { total_results := total, next_page := .Done }
  else
    { total_results := total, next_page := st.next_page.next_page next_url }

/-- `LazilyPagedState::page_url` (src/api/paged/lazy.rs): `None` when the
cursor is `Done`; the continuation URL verbatim when the cursor holds
one; otherwise a URL constructed from the endpoint with `per_page` and
the cursor's pairs appended. -/
def LazilyPagedState.page_url (c : ClientSpec) (paged : Paged) (st : PageState) :
    Option Url :=
  if st.next_page = .Done then
    none
  else
    match st.next_page.next_url with
    | some next_url => some next_url
    | none =>
      let url := paged.endpoint.parameters.add_to_url (c.rest_endpoint paged.endpoint.path)
      let per_page := paged.pagination.page_limit
      some { url with params :=
        url.params ++ [("per_page", toString per_page)] ++ st.next_page.apply_to }

/-- `LazilyPagedState::process_response` (src/api/paged/lazy.rs): classify
the response and, on success, advance the page state; on any error the
page state is untouched.  `decode` stands for
`serde_json::from_value::<Vec<T>>` and `tn` for the name of `Vec<T>`. -/
def LazilyPagedState.process_response {T : Type} (paged : Paged)
    (decode : JsonValue → Option (List T)) (tn : String)
    (rsp : Response) (st : PageState) : Except ApiError (List T) × PageState :=
  let next_url := if paged.endpoint.use_keyset_pagination then rsp.nextUrlHeader else none
  match rsp.bodyJson with
  | none => (.error (ApiError.server_error rsp.status rsp.bodyBytes), st)
  | some v =>
    if statusIsSuccess rsp.status then
      match decode v with
      | none => (.error (ApiError.data_type tn), st)
      | some page => (.ok page, LazilyPagedState.next_page paged st page.length next_url)
    else
      (.error (ApiError.from_marketstack v), st)

/-- `Query::query` / `AsyncQuery::query_async` for `LazilyPagedState`
(src/api/paged/lazy.rs): when `page_url` yields no URL, return an empty
page at once without calling `rest`; otherwise perform one `rest` call
(the response supplied by the `responses` oracle at the current call
count) and process it.  The returned `Nat` is the updated network call
count. -/
def LazilyPagedState.query {T : Type} (c : ClientSpec) (paged : Paged)
    (decode : JsonValue → Option (List T)) (tn : String)
    (responses : Nat → Response) (st : PageState) (calls : Nat) :
    Except ApiError (List T) × PageState × Nat :=
  match LazilyPagedState.page_url c paged st with
  | none => (.ok [], st, calls)
  | some _ =>
    let rsp := responses calls
    let pr := LazilyPagedState.process_response paged decode tn rsp st
    (pr.1, pr.2, calls + 1)

/-- The response classification shared by the `Query` and `AsyncQuery`
impls for `E: Endpoint` (src/api/endpoint.rs): unparseable body gives the
service error with the status and raw bytes; a parsed body with a
non-success status goes through `ApiError::from_marketstack`; a success
status with a failing target-type deserialization gives the data-type
error; otherwise the typed value. -/
def dispatchClassify {T : Type} (rsp : Response)
    (decode : JsonValue → Option T) (tn : String) : Except ApiError T :=
  match rsp.bodyJson with
  | none => .error (ApiError.server_error rsp.status rsp.bodyBytes)
  | some v =>
    if statusIsSuccess rsp.status then
      match decode v with
      | none => .error (ApiError.data_type tn)
      | some t => .ok t
    else
      .error (ApiError.from_marketstack v)

/-- `Query::query` for `E: Endpoint` (src/api/endpoint.rs; the
`AsyncQuery` impl is line-for-line the same modulo `await`): check the
client's auth token — missing auth errors out before any network call —
then build the URL from the endpoint's parameters with `access_key`
pushed, perform one `rest` call and classify the response.  The second
component lists the URLs of the requests performed. -/
def endpointQuery {T : Type} (c : ClientSpec) (e : EndpointSpec) (rsp : Response)
    (decode : JsonValue → Option T) (tn : String) :
    Except ApiError T × List Url :=
  match c.auth with
  | none => (.error ApiError.auth_error, [])
  | some token =>
    let url := (e.parameters.push "access_key" token).add_to_url (c.rest_endpoint e.path)
    (dispatchClassify rsp decode tn, [url])

/-- `Query::query` for `Raw<E>` (src/api/raw.rs; the `AsyncQuery` impl is
identical modulo `await`): no auth check and no `access_key` injection —
the URL carries exactly the endpoint's own parameters and one `rest` call
is always performed; a non-success status goes through the same
remote-error extraction, a success returns the raw body bytes. -/
def rawQuery (c : ClientSpec) (e : EndpointSpec) (rsp : Response) :
    Except ApiError (List Nat) × List Url :=
  let url := e.parameters.add_to_url (c.rest_endpoint e.path)
  let res : Except ApiError (List Nat) :=
    if statusIsSuccess rsp.status then
      .ok rsp.bodyBytes
    else
      match rsp.bodyJson with
      | none => .error (ApiError.server_error rsp.status rsp.bodyBytes)
      | some v => .error (ApiError.from_marketstack v)
  (res, [url])

/-- Stated from the claim's words, to compare with the dispatch code: a
body that fails to parse as JSON yields `MarketstackService` carrying the
HTTP status and raw bytes regardless of status; a JSON body with a
non-success status yields `Marketstack msg` when a `message` field, else
an `error` field, holds a string, `MarketstackObject` when that field's
value is not a string, and `MarketstackUnrecognized` carrying the whole
payload when neither field exists; a JSON body with a success status that
fails to deserialize into the caller's target type yields `DataType`
naming the target type; otherwise the typed value is returned. -/
def classifySpec {T : Type} (rsp : Response)
    (decode : JsonValue → Option T) (tn : String) : Except ApiError T :=
  match rsp.bodyJson with
  | none => .error (.MarketstackService rsp.status rsp.bodyBytes)
  | some v =>
    if ¬ statusIsSuccess rsp.status then
      match (v.pointerKey "message").or (v.pointerKey "error") with
      | some (.str m) => .error (.Marketstack m)
      | some j => .error (.MarketstackObject j)
      | none => .error (.MarketstackUnrecognized v)
    else
      match decode v with
      | none => .error (.DataType tn)
      | some t => .ok t

/-- The page URL chosen by one iteration of the eager collector
(src/api/paged/all_at_once.rs): a pending continuation URL is used
verbatim; otherwise the base URL is cloned and `per_page` plus the mode
pair (`pagination=keyset`, or `page=N` for offset mode) are appended. -/
def eagerPageUrl (c : ClientSpec) (paged : Paged) (page_num : Nat)
    (next_url : Option Url) : Url :=
  match next_url with
  | some u => u
  | none =>
    let url := paged.endpoint.parameters.add_to_url (c.rest_endpoint paged.endpoint.path)
    { url with params := url.params ++
        [("per_page", toString paged.pagination.page_limit)] ++
        (if paged.endpoint.use_keyset_pagination then [("pagination", "keyset")]
         else [("page", toString page_num)]) }

/-- The loop of `AsyncQuery::query_async` for `Paged<E>`
(src/api/paged/all_at_once.rs): request the page URL, extract the keyset
continuation from the headers, classify the body, extend the results,
stop on the termination rule or — under keyset mode — when no
continuation URL was found, else advance the page number and repeat.
`fuel` bounds the number of iterations (the source loop is unbounded);
`none` means the bound was exhausted.  The result carries the URLs
requested, in order. -/
def eagerQuery {T : Type} (c : ClientSpec) (paged : Paged)
    (decode : JsonValue → Option (List T)) (tn : String)
    (responses : Nat → Response) :
    Nat → Nat → List T → Option Url → List Url →
    Option (List Url × Except ApiError (List T))
  | 0, _, _, _, _ => none
  | fuel + 1, page_num, results, next_url, reqs =>
    let page_url := eagerPageUrl c paged page_num next_url
    let reqs2 := reqs ++ [page_url]
    let rsp := responses reqs.length
    let next_url2 :=
      if paged.endpoint.use_keyset_pagination then rsp.nextUrlHeader else none
    match rsp.bodyJson with
    | none => some (reqs2, .error (ApiError.server_error rsp.status rsp.bodyBytes))
    | some v =>
      if statusIsSuccess rsp.status then
        match decode v with
        | none => some (reqs2, .error (ApiError.data_type tn))
        | some page =>
          let results2 := results ++ page
          if paged.pagination.is_last_page page.length results2.length then
            some (reqs2, .ok results2)
          else if paged.endpoint.use_keyset_pagination && next_url2.isNone then
            some (reqs2, .ok results2)
          else
            eagerQuery c paged decode tn responses fuel
              (if paged.endpoint.use_keyset_pagination then page_num else page_num + 1)
              results2 next_url2 reqs2
      else
        some (reqs2, .error (ApiError.from_marketstack v))

/-- `AsyncQuery::query_async` for `Paged<E>` from its entry: page number
1, no results, no pending continuation, no requests yet. -/
def Paged.query_async {T : Type} (c : ClientSpec) (paged : Paged)
    (decode : JsonValue → Option (List T)) (tn : String)
    (responses : Nat → Response) (fuel : Nat) :
    Option (List Url × Except ApiError (List T)) :=
  eagerQuery c paged decode tn responses fuel 1 [] none []

/-- `PageLimit` (src/api/paged.rs). -/
structure PageLimit where
  val : Nat
deriving DecidableEq

/-- `PageLimit::new` (src/api/paged.rs): accept a requested size of at
most 1000 unchanged, reject a larger one with the pagination
exceeds-limit error.  The argument is a `u16` in the source; claims carry
that bound as a hypothesis. -/
def PageLimit.new (limit : Nat) : Except ApiError PageLimit :=
  if limit ≤ 1000 then
    .ok ⟨limit⟩
  else
    .error (.Pagination .ExceedLimit)

/-- The `limit` field of `EodBuilder` (src/api/eod.rs; `derive_builder`
wraps every builder field in `Option`, and the `strip_option` setter
stores `Some(Some(..))`).  The other builder fields do not interact with
the page-size check. -/
structure EodBuilder where
  limit : Option (Option PageLimit)
deriving DecidableEq

/-- `EodBuilder::limit` (src/api/eod.rs), as `set_limit` because the
field projection takes the source name: propagate `PageLimit::new`'s
check and store the validated limit on success. -/
def EodBuilder.set_limit (b : EodBuilder) (l : Nat) : Except ApiError EodBuilder :=
  match PageLimit.new l with
  | .ok pl => .ok { b with limit := some (some pl) }
  | .error e => .error e

/-- Popping every item off the iterator's buffer, one `pop` (from the
back of the vector) at a time, in the order the pops yield them
(src/api/paged/lazy.rs, `self.current_page.pop()`). -/
def popAll {T : Type} (buf : List T) : List T :=
  match buf with
  | [] => []
  | b :: bs => (b :: bs).getLast (by simp) :: popAll (b :: bs).dropLast
termination_by buf.length
decreasing_by
  simp only [List.length_dropLast, List.length_cons]
  omega

/-- `Iterator::next` for `LazilyPagedIter` driven by `collect` on
`Result` items (src/api/paged/lazy.rs; `Query::query` for `Paged<E>` in
src/api/paged/all_at_once.rs is `self.iter(client).collect()`).  Each
`next` call pops from the back of the buffer; when the buffer is empty it
fetches the next page, stores it reversed, and pops; a `None` pop (empty
fetched page) ends the iteration and an error item short-circuits the
collection as `collect::<Result<Vec<_>, _>>` does.  `fuel` bounds the
number of page fetches; `none` means the bound was exhausted. -/
def lazyIterCollect {T : Type} (c : ClientSpec) (paged : Paged)
    (decode : JsonValue → Option (List T)) (tn : String)
    (responses : Nat → Response) :
    Nat → PageState → Nat → List T → List T →
    Option (Except ApiError (List T))
  | 0, _, _, _, _ => none
  | fuel + 1, st, calls, buf, acc =>
    let acc2 := acc ++ popAll buf
    match LazilyPagedState.query c paged decode tn responses st calls with
    | (.error e, _, _) => some (.error e)
    | (.ok data, st2, calls2) =>
      if data.isEmpty then
        some (.ok acc2)
      else
        lazyIterCollect c paged decode tn responses fuel st2 calls2 data.reverse acc2

/-- `Query::query` for `Paged<E>` (src/api/paged/all_at_once.rs):
`self.iter(client).collect()` — the iterator starts from
`LazilyPagedState::new` with an empty buffer. -/
def Paged.queryEager {T : Type} (c : ClientSpec) (paged : Paged)
    (decode : JsonValue → Option (List T)) (tn : String)
    (responses : Nat → Response) (fuel : Nat) :
    Option (Except ApiError (List T)) :=
  lazyIterCollect c paged decode tn responses fuel (LazilyPagedState.new paged) 0 [] []

/-- Stated from the claim's words, to compare with the iterator: the
pages the lazy cursor fetches, page by page, each in server order —
stopping at the first empty fetch and short-circuiting at the first
error. -/
def fetchedPagesSpec {T : Type} (c : ClientSpec) (paged : Paged)
    (decode : JsonValue → Option (List T)) (tn : String)
    (responses : Nat → Response) :
    Nat → PageState → Nat → Option (Except ApiError (List (List T)))
  | 0, _, _ => none
  | fuel + 1, st, calls =>
    match LazilyPagedState.query c paged decode tn responses st calls with
    | (.error e, _, _) => some (.error e)
    | (.ok [], _, _) => some (.ok [])
    | (.ok data, st2, calls2) =>
      (fetchedPagesSpec c paged decode tn responses fuel st2 calls2).map
        (fun r => r.map (fun pages => data :: pages))

/-- `serde_json::from_value::<Vec<serde_json::Value>>`: decoding a JSON
value into a vector of JSON values succeeds exactly on arrays, keeping
the elements. -/
def decodeArr : JsonValue → Option (List JsonValue)
  | .arr l => some l
  | _ => none

/-- A concrete test client (host plus a configured token). -/
def mockClient : ClientSpec :=
  { host := "https://api.test", auth := some "token" }

/-- A concrete offset-mode endpoint with no extra parameters. -/
def mockOffsetEndpoint : EndpointSpec :=
  { path := "eod", parameters := [], use_keyset_pagination := false }

/-- A mock 200 response whose body is a JSON array of `n` items and whose
headers carry no continuation URL. -/
def mockPage (n : Nat) : Response :=
  { status := 200, bodyBytes := [],
    bodyJson := some (.arr (List.replicate n .null)),
    nextUrlHeader := none }

/-- The observable outcome of an eager paged run: the number of requests
performed and, on success, the number of items returned. -/
def runStats (r : Option (List Url × Except ApiError (List JsonValue))) :
    Option (Nat × Option Nat) :=
  r.map (fun p => (p.1.length,
    match p.2 with
    | .ok items => some items.length
    | .error _ => none))

end Marketstack

namespace Marketstack

/-- C1: the pagination termination predicate is exact — `is_last_page p s
t` holds iff `s` is strictly below the effective per-page ceiling
`page_limit p`, or `p = Limit n` with `n ≤ t`; the ceiling is 1000 for
`All` and `min n 1000` for `Limit n`, so it never exceeds the hard cap
1000. -/
theorem is_last_page_iff (p : Pagination) (s t n : Nat) :
    (p.is_last_page s t = true ↔
      s < p.page_limit ∨ ∃ m, p = .Limit m ∧ m ≤ t) ∧
    Pagination.page_limit .All = 1000 ∧
    Pagination.page_limit (.Limit n) = min n 1000 ∧
    p.page_limit ≤ 1000 := by
  refine ⟨?_, rfl, rfl, ?_⟩
  · cases p with
    | All =>
      simp [Pagination.is_last_page, Pagination.page_limit, MAX_PAGE_SIZE]
    | Limit m =>
      simp only [Pagination.is_last_page, Pagination.page_limit]
      by_cases h : s < min m MAX_PAGE_SIZE
      · simp [h]
      · simp [h]
  · cases p with
    | All => simp [Pagination.page_limit, MAX_PAGE_SIZE]
    | Limit m => simp [Pagination.page_limit, MAX_PAGE_SIZE]

/-- C2: the lazy pagination cursor follows exactly the specified state
machine: the initial state is `Keyset First` when the endpoint uses
keyset pagination and `Number 1` otherwise; after a page of size `s`
bringing the accumulated total to `t`, the cursor becomes `Done` when
`is_last_page s t` holds, else `Number k` steps to `Number (k+1)`,
`Keyset _` steps to `Keyset (Next url)` when a continuation URL was
extracted and to `Done` when none was, and `Done` stays `Done`. -/
theorem lazy_cursor_state_machine (paged : Paged) (st : PageState)
    (s : Nat) (u : Option Url) :
    (LazilyPagedState.new paged).next_page =
      (if paged.endpoint.use_keyset_pagination then Page.Keyset .First
       else Page.Number 1) ∧
    (LazilyPagedState.next_page paged st s u).next_page =
      (if paged.pagination.is_last_page s (st.total_results + s) then Page.Done
       else
         match st.next_page, u with
         | Page.Number k, _ => Page.Number (k + 1)
         | Page.Keyset _, some url => Page.Keyset (.Next url)
         | Page.Keyset _, none => Page.Done
         | Page.Done, _ => Page.Done) := by
  refine ⟨rfl, ?_⟩
  unfold LazilyPagedState.next_page
  by_cases h : paged.pagination.is_last_page s (st.total_results + s)
  · simp [h]
  · simp only [h, if_false, Bool.false_eq_true]
    cases st.next_page <;> cases u <;> simp [Page.next_page]

/-- C3: once the cursor is `Done`, `page_url` yields no URL, and a
further page query (sync or async, which share this embedding) returns an
empty page immediately, leaves the cursor `Done`, and performs no network
call — the call counter is unchanged. -/
theorem done_query_no_network {T : Type} (c : ClientSpec) (paged : Paged)
    (decode : JsonValue → Option (List T)) (tn : String)
    (responses : Nat → Response) (total calls : Nat) :
    LazilyPagedState.page_url c paged ⟨total, .Done⟩ = none ∧
    LazilyPagedState.query c paged decode tn responses ⟨total, .Done⟩ calls =
      (.ok [], ⟨total, .Done⟩, calls) := by
  constructor
  · simp [LazilyPagedState.page_url]
  · simp [LazilyPagedState.query, LazilyPagedState.page_url]

/-- C4: the classification performed by query dispatch coincides, on
every response and target type, with the classification the claim
describes (JSON-parse failure checked first regardless of status, then
remote-error extraction on a non-success status with the
message-then-error field preference, then target-type deserialization on
a success status). -/
theorem dispatch_classification {T : Type} (rsp : Response)
    (decode : JsonValue → Option T) (tn : String) :
    dispatchClassify rsp decode tn = classifySpec rsp decode tn := by
  unfold dispatchClassify classifySpec
  cases rsp.bodyJson with
  | none => rfl
  | some v =>
    by_cases h : statusIsSuccess rsp.status
    · simp [h, ApiError.data_type]
    · simp only [h, if_true, if_false, Bool.false_eq_true, not_false_iff]
      unfold ApiError.from_marketstack
      cases hv : (v.pointerKey "message").or (v.pointerKey "error") with
      | none => simp
      | some j => cases j <;> simp [JsonValue.asStr]

/-- C5: under keyset pagination, a response whose page decodes but whose
headers carry no continuation URL stops the eager collector after that
request — whatever the page size, it returns the accumulated items
instead of looping — and the lazy cursor transitions to `Done` from any
keyset position when no continuation URL was extracted. -/
theorem keyset_no_continuation_stops {T : Type} (c : ClientSpec) (paged : Paged)
    (decode : JsonValue → Option (List T)) (tn : String)
    (responses : Nat → Response) (fuel page_num : Nat) (results : List T)
    (next_url : Option Url) (reqs : List Url) (v : JsonValue) (page : List T)
    (kp : KeysetPage) (total s : Nat)
    (hk : paged.endpoint.use_keyset_pagination = true)
    (hb : (responses reqs.length).bodyJson = some v)
    (hs : statusIsSuccess (responses reqs.length).status = true)
    (hd : decode v = some page)
    (hh : (responses reqs.length).nextUrlHeader = none) :
    eagerQuery c paged decode tn responses (fuel + 1) page_num results next_url reqs =
      some (reqs ++ [eagerPageUrl c paged page_num next_url], .ok (results ++ page)) ∧
    (LazilyPagedState.next_page paged ⟨total, .Keyset kp⟩ s none).next_page = .Done := by
  constructor
  · simp only [eagerQuery, hk, hb, hs, hd, hh, if_true, Option.isNone_none,
      Bool.and_true, Bool.true_and]
    by_cases hl :
        paged.pagination.is_last_page page.length (results ++ page).length
    · simp [hl]
    · simp [hl]
  · unfold LazilyPagedState.next_page
    by_cases hl : paged.pagination.is_last_page s (total + s)
    · simp [hl]
    · simp [hl, Page.next_page]

/-- A concrete keyset-mode endpoint for the C5 witness. -/
def mockKeysetEndpoint : EndpointSpec :=
  { path := "eod", parameters := [], use_keyset_pagination := true }

/-- C5 witness: the theorem applied to a concrete keyset run whose single
response holds a one-item page and no continuation URL. -/
theorem keyset_no_continuation_stops_witness :
    eagerQuery mockClient ⟨mockKeysetEndpoint, .All⟩ decodeArr "Vec"
        (fun _ => mockPage 1) 1 1 [] none [] =
      some ([eagerPageUrl mockClient ⟨mockKeysetEndpoint, .All⟩ 1 none],
        .ok (List.replicate 1 .null)) ∧
    (LazilyPagedState.next_page ⟨mockKeysetEndpoint, .All⟩
        ⟨0, .Keyset .First⟩ 1 none).next_page = .Done := by
  have h := keyset_no_continuation_stops mockClient ⟨mockKeysetEndpoint, .All⟩
    decodeArr "Vec" (fun _ => mockPage 1) 0 1 [] none []
    (.arr (List.replicate 1 .null)) (List.replicate 1 .null) .First 0 1
    rfl rfl rfl rfl rfl
  simpa using h

/-- C6: under keyset mode, the next request's URL is the continuation URL
verbatim — in both drivers, with nothing re-appended — while every
constructed page URL carries the endpoint's parameters followed by
`per_page` set to the clamped page limit and then the mode pair: `page=k`
for offset cursor position `k` (so the second offset request carries
`page=2`), or `pagination=keyset`. -/
theorem paged_request_shape (c : ClientSpec) (path : String)
    (params : QueryParams) (b : Bool) (pg : Pagination) (u : Url)
    (total k page_num : Nat) :
    LazilyPagedState.page_url c ⟨⟨path, params, b⟩, pg⟩
        ⟨total, .Keyset (.Next u)⟩ = some u ∧
    eagerPageUrl c ⟨⟨path, params, b⟩, pg⟩ page_num (some u) = u ∧
    LazilyPagedState.page_url c ⟨⟨path, params, b⟩, pg⟩ ⟨total, .Number k⟩ =
      some ⟨c.host ++ "/" ++ path,
        params ++ [("per_page", toString pg.page_limit), ("page", toString k)]⟩ ∧
    LazilyPagedState.page_url c ⟨⟨path, params, b⟩, pg⟩ ⟨total, .Keyset .First⟩ =
      some ⟨c.host ++ "/" ++ path,
        params ++ [("per_page", toString pg.page_limit), ("pagination", "keyset")]⟩ ∧
    eagerPageUrl c ⟨⟨path, params, false⟩, pg⟩ page_num none =
      ⟨c.host ++ "/" ++ path,
        params ++ [("per_page", toString pg.page_limit), ("page", toString page_num)]⟩ ∧
    eagerPageUrl c ⟨⟨path, params, true⟩, pg⟩ page_num none =
      ⟨c.host ++ "/" ++ path,
        params ++ [("per_page", toString pg.page_limit), ("pagination", "keyset")]⟩ := by
  refine ⟨?_, rfl, ?_, ?_, ?_, ?_⟩ <;>
    simp [LazilyPagedState.page_url, eagerPageUrl, Page.next_url, Page.apply_to,
      QueryParams.add_to_url, ClientSpec.rest_endpoint]

/-- C7 counterexample: with mock pages of 20 items each (no end) and
policy `Limit 45`, the eager collector performs exactly one request and
returns 20 items — the short-page rule fires because 20 is strictly below
the effective per-page ceiling `min 45 1000 = 45` — so it does not
perform 3 requests and does not return 60 items. -/
theorem limit_termination_counterexample :
    runStats (Paged.query_async mockClient ⟨mockOffsetEndpoint, .Limit 45⟩
        decodeArr "Vec" (fun _ => mockPage 20) 10) = some (1, some 20) ∧
    ¬ runStats (Paged.query_async mockClient ⟨mockOffsetEndpoint, .Limit 45⟩
        decodeArr "Vec" (fun _ => mockPage 20) 10) = some (3, some 60) := by
  constructor
  · decide
  · decide

/-- C7 amended: the limit caps the number of page requests, not the
returned-item count, when pages arrive at the effective per-page ceiling:
with mock pages of 1000 items each (no end) and policy `Limit 2001`, the
eager collector stops after exactly 3 requests (1000+1000+1000 ≥ 2001)
and returns all 3000 fetched items — the final overshooting page is
returned in full rather than truncated. -/
theorem limit_termination_amended (P : List JsonValue) (hP : P.length = 1000) :
    runStats (Paged.query_async mockClient ⟨mockOffsetEndpoint, .Limit 2001⟩
        decodeArr "Vec" (fun _ => Response.mk 200 [] (some (.arr P)) none) 10) =
      some (3, some 3000) := by
  have hss : statusIsSuccess 200 = true := rfl
  have h1 : Pagination.is_last_page (.Limit 2001) 1000 1000 = false := by decide
  have h2 : Pagination.is_last_page (.Limit 2001) 1000 2000 = false := by decide
  have h3 : Pagination.is_last_page (.Limit 2001) 1000 3000 = true := by decide
  unfold Paged.query_async
  rw [(by norm_num : (10 : Nat) = 9 + 1)]
  norm_num [eagerQuery, hss, decodeArr, mockOffsetEndpoint, hP, h1, h2, h3,
    runStats]

/-- C7 amended witness: the amended theorem applied to the concrete
1000-item mock page. -/
theorem limit_termination_amended_witness :
    (List.replicate 1000 JsonValue.null).length = 1000 ∧
    runStats (Paged.query_async mockClient ⟨mockOffsetEndpoint, .Limit 2001⟩
        decodeArr "Vec"
        (fun _ => Response.mk 200 [] (some (.arr (List.replicate 1000 .null))) none)
        10) = some (3, some 3000) :=
  ⟨List.length_replicate 1000 JsonValue.null,
   limit_termination_amended (List.replicate 1000 .null)
     (List.length_replicate 1000 JsonValue.null)⟩

/-- C8 counterexample: the `Raw` dispatch, on a client with no configured
credential, still performs its one network request — with the endpoint's
own parameters and no `access_key` pair — and succeeds with the raw
bytes instead of failing with the missing-auth error; so the auth
injection and pre-flight check do not hold on every dispatch path. -/
theorem auth_raw_counterexample :
    rawQuery ⟨"https://api.test", none⟩
        ⟨"eod", [("symbols", "AAPL")], false⟩
        ⟨200, [1, 2], some (.obj []), none⟩ =
      (.ok [1, 2], [⟨"https://api.test/eod", [("symbols", "AAPL")]⟩]) := by
  rfl

/-- C8 amended: the plain `Endpoint` dispatch injects the token as the
`access_key` query parameter and fails with the missing-auth error,
before performing any network call, when no credential is configured; the
`Raw` modifier and the paged drivers perform no auth check and construct
their request URLs without `access_key`. -/
theorem auth_injection_amended {T : Type} (host token path : String)
    (params : QueryParams) (b : Bool) (pg : Pagination) (rsp : Response)
    (decode : JsonValue → Option T) (tn : String) (total k : Nat) :
    endpointQuery ⟨host, none⟩ ⟨path, params, b⟩ rsp decode tn =
      (.error ApiError.auth_error, []) ∧
    (endpointQuery ⟨host, some token⟩ ⟨path, params, b⟩ rsp decode tn).2 =
      [⟨host ++ "/" ++ path, params ++ [("access_key", token)]⟩] ∧
    (rawQuery ⟨host, none⟩ ⟨path, params, b⟩ rsp).2 =
      [⟨host ++ "/" ++ path, params⟩] ∧
    LazilyPagedState.page_url ⟨host, none⟩ ⟨⟨path, params, b⟩, pg⟩
        ⟨total, .Number k⟩ =
      some ⟨host ++ "/" ++ path,
        params ++ [("per_page", toString pg.page_limit), ("page", toString k)]⟩ ∧
    eagerPageUrl ⟨host, none⟩ ⟨⟨path, params, false⟩, pg⟩ k none =
      ⟨host ++ "/" ++ path,
        params ++ [("per_page", toString pg.page_limit), ("page", toString k)]⟩ := by
  refine ⟨rfl, ?_, ?_, ?_, ?_⟩ <;>
    simp [endpointQuery, rawQuery, eagerPageUrl, LazilyPagedState.page_url,
      Page.next_url, Page.apply_to, QueryParams.push, QueryParams.add_to_url,
      ClientSpec.rest_endpoint]

/-- C9: for every 16-bit requested page size `s`, `PageLimit::new s`
succeeds preserving `s` exactly when `s ≤ 1000` and fails with the
pagination exceeds-limit error when `s > 1000`, and the `EodBuilder`
limit setter propagates the same check at endpoint-construction time. -/
theorem page_limit_bound (s : Nat) (b : EodBuilder) (hs : s < 65536) :
    (s ≤ 1000 →
      PageLimit.new s = .ok ⟨s⟩ ∧
      b.set_limit s = .ok { b with limit := some (some ⟨s⟩) }) ∧
    (1000 < s →
      PageLimit.new s = .error (.Pagination .ExceedLimit) ∧
      b.set_limit s = .error (.Pagination .ExceedLimit)) := by
  constructor
  · intro h
    have hnew : PageLimit.new s = .ok ⟨s⟩ := by simp [PageLimit.new, h]
    exact ⟨hnew, by simp [EodBuilder.set_limit, hnew]⟩
  · intro h
    have hnew : PageLimit.new s = .error (.Pagination .ExceedLimit) := by
      simp only [PageLimit.new, if_neg (by omega : ¬ s ≤ 1000)]
    exact ⟨hnew, by simp [EodBuilder.set_limit, hnew]⟩

/-- C9 witness: the theorem applied at the in-bounds size 1000 and the
out-of-bounds size 1001, both 16-bit values. -/
theorem page_limit_bound_witness :
    (PageLimit.new 1000 = .ok ⟨1000⟩ ∧
      EodBuilder.set_limit ⟨none⟩ 1000 = .ok ⟨some (some ⟨1000⟩)⟩) ∧
    (PageLimit.new 1001 = .error (.Pagination .ExceedLimit) ∧
      EodBuilder.set_limit ⟨none⟩ 1001 = .error (.Pagination .ExceedLimit)) :=
  ⟨(page_limit_bound 1000 ⟨none⟩ (by omega)).1 (by omega),
   (page_limit_bound 1001 ⟨none⟩ (by omega)).2 (by omega)⟩

/-- Popping from the back of a buffer yields its last item first. -/
theorem popAll_concat {T : Type} (xs : List T) (x : T) :
    popAll (xs ++ [x]) = x :: popAll xs := by
  cases xs with
  | nil => simp [popAll]
  | cons y ys =>
    simp only [List.cons_append]
    conv_lhs => rw [popAll]
    simp [List.getLast_append, List.dropLast_cons_of_ne_nil, List.dropLast_concat]

/-- Draining a buffer by popping from the back yields the buffer
reversed. -/
theorem popAll_eq_reverse {T : Type} (l : List T) : popAll l = l.reverse := by
  induction l using List.reverseRecOn with
  | nil => simp [popAll]
  | append_singleton xs x ih => simp [popAll_concat, ih]

/-- A non-empty buffer is drained into the accumulator before the next
fetch. -/
theorem lazyIterCollect_buf {T : Type} (c : ClientSpec) (paged : Paged)
    (decode : JsonValue → Option (List T)) (tn : String)
    (responses : Nat → Response) (fuel : Nat) (st : PageState) (calls : Nat)
    (buf acc : List T) :
    lazyIterCollect c paged decode tn responses fuel st calls buf acc =
      lazyIterCollect c paged decode tn responses fuel st calls []
        (acc ++ buf.reverse) := by
  cases fuel with
  | zero => simp [lazyIterCollect]
  | succ fuel =>
    simp only [lazyIterCollect, popAll_eq_reverse]
    simp

/-- Collecting the lazy iterator from an empty buffer concatenates, in
order, the pages the cursor fetches. -/
theorem lazyIterCollect_eq_pages {T : Type} (c : ClientSpec) (paged : Paged)
    (decode : JsonValue → Option (List T)) (tn : String)
    (responses : Nat → Response) :
    ∀ (fuel : Nat) (st : PageState) (calls : Nat) (acc : List T),
    lazyIterCollect c paged decode tn responses fuel st calls [] acc =
      (fetchedPagesSpec c paged decode tn responses fuel st calls).map
        (fun r => r.map (fun pages => acc ++ pages.flatten)) := by
  intro fuel
  induction fuel with
  | zero =>
    intro st calls acc
    simp [lazyIterCollect, fetchedPagesSpec]
  | succ fuel ih =>
    intro st calls acc
    simp only [lazyIterCollect, fetchedPagesSpec]
    rcases hq : LazilyPagedState.query c paged decode tn responses st calls
      with ⟨res, st2, calls2⟩
    cases res with
    | error e => simp [hq, Except.map]
    | ok data =>
      cases data with
      | nil => simp [hq, popAll, Except.map]
      | cons d ds =>
        simp only [hq, List.isEmpty_cons, Bool.false_eq_true, if_false]
        rw [lazyIterCollect_buf, List.reverse_reverse, ih]
        cases hfp : fetchedPagesSpec c paged decode tn responses fuel st2 calls2 with
        | none => simp
        | some r =>
          cases r with
          | error e => simp [Except.map, popAll]
          | ok pages => simp [Except.map, popAll, List.flatten]

/-- C10: the synchronous eager collection is definitionally the
collection of the lazy iterator; the internal reverse followed by
pop-from-the-back restores each fetched page's server order; and the
collected result equals, item for item and in order, the concatenation of
the pages the lazy cursor fetches. -/
theorem eager_lazy_equivalence {T : Type} (c : ClientSpec) (paged : Paged)
    (decode : JsonValue → Option (List T)) (tn : String)
    (responses : Nat → Response) (fuel : Nat) (st : PageState) (calls : Nat)
    (acc l : List T) :
    Paged.queryEager c paged decode tn responses fuel =
      lazyIterCollect c paged decode tn responses fuel
        (LazilyPagedState.new paged) 0 [] [] ∧
    popAll l.reverse = l ∧
    lazyIterCollect c paged decode tn responses fuel st calls [] acc =
      (fetchedPagesSpec c paged decode tn responses fuel st calls).map
        (fun r => r.map (fun pages => acc ++ pages.flatten)) :=
  ⟨rfl, by rw [popAll_eq_reverse, List.reverse_reverse],
   lazyIterCollect_eq_pages c paged decode tn responses fuel st calls acc⟩

end Marketstack
